import Mathlib

/-!
Shallow embedding of the goose-jira-analyzer repository.

The repository exposes a read-only JIRA analysis service.  The mutable parts
of the source (the single `self.jira` session handle, the Python `set` of
visited issue keys, Python dictionaries in insertion order) are embedded as
explicit state passing over association lists; the remote tracker is a pure
`World` value whose fields give the responses of the remote read endpoints.
Operations return an `Except String` value (a Python `raise` is `.error`)
together with the list of remote calls they performed, in order.
-/

/-- A JIRA client session handle (the value stored in `self.jira`). -/
abbrev Session := Nat

/-- A JIRA user object, of which the code only reads `displayName`. -/
structure UserObj where
  displayName : String
deriving DecidableEq

/-- A JIRA component object, of which the code only reads `name`. -/
structure ComponentObj where
  name : String
deriving DecidableEq

/-- A comment on an issue: `comment.author`, `comment.body`, `comment.created`,
`comment.updated` (author reduced to its display name). -/
structure Comment where
  author : UserObj
  body : String
  created : String
  updated : String
deriving DecidableEq

/-- The linked-issue payload carried on one side of an issue link:
`link.outwardIssue` / `link.inwardIssue` with its key, summary and status name. -/
structure LinkedIssue where
  key : String
  summary : String
  status : String
deriving DecidableEq

/-- An issue link.  The source probes `hasattr(link, 'outwardIssue')` and
`hasattr(link, 'inwardIssue')` separately, so each side is an `Option`;
`link.type.outward` and `link.type.inward` are the two type labels. -/
structure IssueLink where
  typeOutward : String
  typeInward : String
  outwardIssue : Option LinkedIssue
  inwardIssue : Option LinkedIssue
deriving DecidableEq

/-- One entry of `history_item.items` in an issue changelog. -/
structure ChangeItem where
  field : String
  fromString : String
  toString : String
deriving DecidableEq

/-- One entry of `issue.changelog.histories`. -/
structure ChangeHistory where
  created : String
  author : UserObj
  items : List ChangeItem
deriving DecidableEq

/-- An issue as served by the remote tracker.  Name-bearing sub-objects
(`issuetype.name`, `status.name`, `priority.name`) are reduced to their name
strings; an absent priority/assignee/description is `none`. -/
structure Issue where
  key : String
  summary : String
  description : Option String
  issuetype : String
  status : String
  priority : Option String
  assignee : Option UserObj
  reporter : UserObj
  created : String
  updated : String
  labels : List String
  components : List ComponentObj
  comments : List Comment
  changelog : List ChangeHistory
  issuelinks : List IssueLink
deriving DecidableEq

/-- A project record (`project.key`, `project.name`, `project.lead`,
`project.description`). -/
structure Project where
  key : String
  name : String
  lead : UserObj
  description : Option String
deriving DecidableEq

/-- The authentication method handed to the `JIRA` constructor. -/
inductive AuthMethod where
  | basic (username apiToken : String)
  | token (apiToken : Option String)
deriving DecidableEq

/-- The remote JIRA service, as a pure value: each field is the response
function of one remote endpoint.  `dateStr d` models the formatted date
`(datetime.now() - timedelta(days=d)).strftime("%Y-%m-%d")`. -/
structure World where
  issueAt : String → Issue
  searchIssues : String → Nat → List Issue
  projectAt : String → Project
  projectComponents : String → List ComponentObj
  hasProjectComponents : Bool
  connectOutcome : String → AuthMethod → Except String Session
  myselfOutcome : Session → Except String Unit
  dateStr : Nat → String
  serverUrl : String

/-- One remote call against the tracker.  The first five constructors are the
read endpoints this codebase uses; the last four are the write endpoints of
the client library, which the codebase never invokes. -/
inductive RemoteCall where
  | issue (key : String)
  | search (jql : String) (maxResults : Nat)
  | project (key : String)
  | projectComponentsCall (key : String)
  | connectCall (server : String) (auth : AuthMethod)
  | myselfCall
  | createIssue (summary : String)
  | addComment (key body : String)
  | updateIssue (key summary : String)
  | deleteIssue (key : String)
deriving DecidableEq

/-- Whether a remote call only reads remote state. -/
def RemoteCall.isRead : RemoteCall → Bool
  | .issue _ => true
  | .search _ _ => true
  | .project _ => true
  | .projectComponentsCall _ => true
  | .connectCall _ _ => true
  | .myselfCall => true
  | .createIssue _ => false
  | .addComment _ _ => false
  | .updateIssue _ _ => false
  | .deleteIssue _ => false

/-- Semantics of one remote call on the tracker state: read calls leave the
world unchanged, write calls mutate the addressed entity. -/
def applyCall (w : World) : RemoteCall → World
  | .issue _ => w
  | .search _ _ => w
  | .project _ => w
  | .projectComponentsCall _ => w
  | .connectCall _ _ => w
  | .myselfCall => w
  | .createIssue s =>
      { w with issueAt := fun k => { w.issueAt k with summary := s } }
  | .addComment k body =>
      { w with issueAt := fun k' =>
          if k' = k then
            { w.issueAt k' with
              comments := (w.issueAt k').comments ++ [⟨⟨"caller"⟩, body, "", ""⟩] }
          else w.issueAt k' }
  | .updateIssue k s =>
      { w with issueAt := fun k' =>
          if k' = k then { w.issueAt k' with summary := s } else w.issueAt k' }
  | .deleteIssue k =>
      { w with issueAt := fun k' =>
          if k' = k then { w.issueAt k' with status := "Deleted" } else w.issueAt k' }

/-- Run a trace of remote calls left to right. -/
def applyTrace (w : World) : List RemoteCall → World
  | [] => w
  | c :: cs => applyTrace (applyCall w c) cs

/-- The analyzer's only state: the `self.jira` handle (`None` before a
successful `connect`). -/
structure AnalyzerState where
  jira : Option Session
deriving DecidableEq

/-- Python truthiness of an optional string (`None` and `""` are falsy). -/
def optStrTruthy : Option String → Bool
  | none => false
  | some s => !(s = "")

/-- The message of the exception raised by every operation that requires a
session: `raise Exception("Not connected to JIRA")`. -/
def notConnectedMsg : String := "Not connected to JIRA"

/-- Python dict assignment `m[k] = v` on an insertion-ordered dictionary:
replace in place when the key is present, append otherwise. -/
def dictInsert {α : Type} (m : List (String × α)) (k : String) (v : α) :
    List (String × α) :=
  match m with
  | [] => [(k, v)]
  | (k', v') :: rest => if k' = k then (k, v) :: rest else (k', v') :: dictInsert rest k v

/-- `defaultdict(int)` increment `m[k] += 1`: bump in place when present,
append the key with count 1 otherwise (keys stay in first-encounter order). -/
def bump (m : List (String × Nat)) (k : String) : List (String × Nat) :=
  match m with
  | [] => [(k, 1)]
  | (k', c) :: rest => if k' = k then (k', c + 1) :: rest else (k', c) :: bump rest k

/-- `defaultdict(list)` append `m[k].append(v)`. -/
def dictAppend {α : Type} (m : List (String × List α)) (k : String) (v : α) :
    List (String × List α) :=
  match m with
  | [] => [(k, [v])]
  | (k', vs) :: rest =>
    if k' = k then (k', vs ++ [v]) :: rest else (k', vs) :: dictAppend rest k v

/-! ## `JiraAnalyzer.connect` (src/jira_analyzer/analyzer.py, lines 12-28) -/

/-- The value returned by `connect`: Python `True`, or the string `str(e)`. -/
inductive ConnectRet where
  | retTrue
  | retStr (msg : String)
deriving DecidableEq

/-- The authentication method `connect` selects: basic auth when both
`username` and `api_token` are truthy, otherwise `token_auth=api_token`. -/
def authOf (username apiToken : Option String) : AuthMethod :=
  if optStrTruthy username && optStrTruthy apiToken then
    .basic (username.getD "") (apiToken.getD "")
  else
    .token apiToken

/-- `JiraAnalyzer.connect` of src/jira_analyzer/analyzer.py: the body is one
`try` around the `JIRA(...)` constructor; any exception is caught and its
string is returned.  The result channel stays `Except` so that a raised
exception would be visible as `.error`. -/
def connect (w : World) (st : AnalyzerState) (server : String)
    (username apiToken : Option String) :
    Except String ConnectRet × AnalyzerState × List RemoteCall :=
  let auth := authOf username apiToken
  match w.connectOutcome server auth with
  | .ok sess => (.ok .retTrue, { st with jira := some sess }, [.connectCall server auth])
  | .error e => (.ok (.retStr e), st, [.connectCall server auth])

/-! ## `JiraAnalyzer.get_issue_details` (analyzer.py, lines 30-94) -/

/-- A comment record in the `get_issue_details` output. -/
structure CommentOut where
  author : String
  created : String
  body : String
  updated : String
deriving DecidableEq

/-- A change-history record in the `get_issue_details` output. -/
structure HistoryRecord where
  date : String
  author : String
  field : String
  fromString : String
  toString : String
deriving DecidableEq

/-- A link record in the `get_issue_details` output. -/
structure LinkOut where
  type : String
  key : String
  status : String
deriving DecidableEq

/-- The `get_issue_details` output record. -/
structure IssueDetails where
  key : String
  summary : String
  description : Option String
  issue_type : String
  status : String
  priority : Option String
  assignee : Option String
  reporter : String
  created : String
  updated : String
  components : List String
  labels : List String
  comments : List CommentOut
  history : List HistoryRecord
  links : List LinkOut
  url : String
deriving DecidableEq

/-- The per-link extraction of `get_issue_details`: an entry for the outward
side if present, then an entry for the inward side if present. -/
def linkEntries (link : IssueLink) : List LinkOut :=
  (match link.outwardIssue with
   | some li => [⟨link.typeOutward, li.key, li.status⟩]
   | none => []) ++
  (match link.inwardIssue with
   | some li => [⟨link.typeInward, li.key, li.status⟩]
   | none => [])

/-- `JiraAnalyzer.get_issue_details`: raises when not connected, otherwise
fetches the issue and flattens comments, changelog and links. -/
def get_issue_details (w : World) (st : AnalyzerState) (issue_key : String) :
    Except String IssueDetails × List RemoteCall :=
  match st.jira with
  | none => (.error notConnectedMsg, [])
  | some _ =>
    let issue := w.issueAt issue_key
    let comments : List CommentOut :=
      issue.comments.map fun c => ⟨c.author.displayName, c.created, c.body, c.updated⟩
    let history : List HistoryRecord :=
      issue.changelog.flatMap fun h =>
        h.items.map fun it =>
          ⟨h.created, h.author.displayName, it.field, it.fromString, it.toString⟩
    let links : List LinkOut := issue.issuelinks.flatMap linkEntries
    (.ok
      { key := issue.key
        summary := issue.summary
        description := issue.description
        issue_type := issue.issuetype
        status := issue.status
        priority := issue.priority
        assignee := issue.assignee.map UserObj.displayName
        reporter := issue.reporter.displayName
        created := issue.created
        updated := issue.updated
        components := issue.components.map ComponentObj.name
        labels := issue.labels
        comments := comments
        history := history
        links := links
        url := w.serverUrl ++ "/browse/" ++ issue.key },
     [.issue issue_key])

/-! ## `JiraAnalyzer.search_issues` (analyzer.py, lines 96-117) -/

/-- A summary record in the `search_issues` output. -/
structure SearchItem where
  key : String
  summary : String
  type : String
  status : String
  priority : Option String
  assignee : Option String
  created : String
  updated : String
  url : String
deriving DecidableEq

/-- The summary record `search_issues` builds for one issue. -/
def searchItemOf (w : World) (issue : Issue) : SearchItem :=
  { key := issue.key
    summary := issue.summary
    type := issue.issuetype
    status := issue.status
    priority := issue.priority
    assignee := issue.assignee.map UserObj.displayName
    created := issue.created
    updated := issue.updated
    url := w.serverUrl ++ "/browse/" ++ issue.key }

/-- `JiraAnalyzer.search_issues`: raises when not connected, otherwise runs
`project = {key}` plus the optional extra filters and maps the results. -/
def search_issues (w : World) (st : AnalyzerState) (project_key : String)
    (jql_filters : Option String) (max_results : Nat) :
    Except String (List SearchItem) × List RemoteCall :=
  match st.jira with
  | none => (.error notConnectedMsg, [])
  | some _ =>
    let base_jql := "project = " ++ project_key
    let base_jql :=
      if optStrTruthy jql_filters then base_jql ++ " AND " ++ jql_filters.getD ""
      else base_jql
    let issues := w.searchIssues base_jql max_results
    (.ok (issues.map (searchItemOf w)), [.search base_jql max_results])

/-! ## `JiraAnalyzer.analyze_issue_relationships` (analyzer.py, lines 119-156)

The inner Python function `get_linked_issues(key, current_depth, visited)`
recurses with `current_depth + 1` and returns `{}` as soon as
`current_depth > depth` or the key was already visited.  In the embedding the
recursion is driven by the structurally decreasing fuel `depth + 1 -
current_depth` (zero exactly when `current_depth > depth`), while the source's
own guard is kept verbatim in the body.  The mutable Python `set` `visited`
is threaded as a list of keys (membership is all the source uses, plus
`visited.add`); the nested output dictionaries are insertion-ordered
association lists.  Each call also reports the list of issue keys it fetched
via `self.jira.issue(key)`, in call order. -/

/-- One value of the nested `links` dictionary: link type, neighbor summary,
neighbor status and the nested expansion. -/
inductive RelEntry where
  | mk (type : String) (summary : String) (status : String)
      (links : List (String × RelEntry))

/-- The nested expansion stored in a `RelEntry`. -/
def RelEntry.links : RelEntry → List (String × RelEntry)
  | .mk _ _ _ l => l

/-- The link-type label stored in a `RelEntry`. -/
def RelEntry.type : RelEntry → String
  | .mk t _ _ _ => t

/-- The state threaded through one level's `for link in issue.fields.issuelinks`
loop: the `links` dictionary built so far, the visited set, and the keys
fetched so far at this level. -/
abbrev RelAcc := List (String × RelEntry) × List String × List String

/-- One side (outward or inward) of one link inside the loop body:
`links[linked_key] = {type, summary, status, links: get_linked_issues(...)}`,
with the recursive expansion `sub` supplied by the caller's recursion. -/
def relStep (tyLabel : String) (side : Option LinkedIssue)
    (recur : String → List String → RelAcc) (acc : RelAcc) : RelAcc :=
  match side with
  | some li =>
    let (sub, v2, f2) := recur li.key acc.2.1
    (dictInsert acc.1 li.key (.mk tyLabel li.summary li.status sub), v2, acc.2.2 ++ f2)
  | none => acc

/-- `get_linked_issues` with fuel `depth + 1 - current_depth` made explicit
(first argument).  `goLinked w depth fuel key cd visited` returns the
expansion dictionary, the grown visited set, and the fetched keys. -/
def goLinked (w : World) (depth : Nat) :
    Nat → String → Nat → List String → RelAcc
  | 0, _, _, visited => ([], visited, [])
  | fuel + 1, key, current_depth, visited =>
    if current_depth > depth ∨ key ∈ visited then ([], visited, [])
    else
      let issue := w.issueAt key
      let init : RelAcc := ([], visited ++ [key], [])
      let out := issue.issuelinks.foldl
        (fun acc link =>
          let acc := relStep link.typeOutward link.outwardIssue
            (fun k v => goLinked w depth fuel k (current_depth + 1) v) acc
          relStep link.typeInward link.inwardIssue
            (fun k v => goLinked w depth fuel k (current_depth + 1) v) acc)
        init
      (out.1, out.2.1, key :: out.2.2)

/-- The inner `get_linked_issues(key, current_depth, visited)` of
`analyze_issue_relationships`. -/
def get_linked_issues (w : World) (depth : Nat) (key : String)
    (current_depth : Nat) (visited : List String) : RelAcc :=
  goLinked w depth (depth + 1 - current_depth) key current_depth visited

/-- The `analyze_issue_relationships` output record. -/
structure RelResult where
  key : String
  relationships : List (String × RelEntry)

/-- `JiraAnalyzer.analyze_issue_relationships`: raises when not connected,
otherwise expands from the root at `current_depth = 1` with an empty visited
set. -/
def analyze_issue_relationships (w : World) (st : AnalyzerState)
    (issue_key : String) (depth : Nat) :
    Except String RelResult × List RemoteCall :=
  match st.jira with
  | none => (.error notConnectedMsg, [])
  | some _ =>
    let (links, _, fetched) := get_linked_issues w depth issue_key 1 []
    (.ok { key := issue_key, relationships := links }, fetched.map RemoteCall.issue)

/-! ## `JiraAnalyzer.analyze_text_content` (analyzer.py, lines 158-222) -/

/-- Splitting a character stream on whitespace runs, accumulating the current
token in reverse: the word splitter behind Python `s.split()` (no empty
tokens). -/
def pyWordsAux : List Char → List Char → List String
  | [], cur => if cur.isEmpty then [] else [String.mk cur.reverse]
  | c :: rest, cur =>
    if c.isWhitespace then
      if cur.isEmpty then pyWordsAux rest []
      else String.mk cur.reverse :: pyWordsAux rest []
    else pyWordsAux rest (c :: cur)

/-- Python `s.lower().split()`: lowercase, then split on whitespace runs. -/
def pyWords (s : String) : List String :=
  pyWordsAux (s.data.map Char.toLower) []

/-- Stable insertion into a count-descending list: the new element goes after
every element of strictly larger count and before the first element of equal
or smaller count. -/
def insertByCountDesc (x : String × Nat) :
    List (String × Nat) → List (String × Nat)
  | [] => [x]
  | y :: ys => if y.2 > x.2 then y :: insertByCountDesc x ys else x :: y :: ys

/-- Python `sorted(m.items(), key=lambda x: x[1], reverse=True)`: a stable
sort by descending count (CPython's sort is stable and `reverse=True`
preserves the original order of equal keys). -/
def sortByCountDesc : List (String × Nat) → List (String × Nat)
  | [] => []
  | x :: xs => insertByCountDesc x (sortByCountDesc xs)

/-- The mutable `analysis` dictionary (plus the local `total_comment_length`
counter) threaded through the per-issue loop of `analyze_text_content`. -/
structure TextAcc where
  common_terms : List (String × Nat)
  mentions : List (String × Nat)
  labels : List (String × Nat)
  components_referenced : List (String × Nat)
  total_comments : Nat
  comment_frequency : List (String × Nat)
  total_comment_length : Nat
deriving DecidableEq

/-- The loop body of `analyze_text_content` for one issue: tally description
words longer than 3 characters, comment count/length/day-frequency (the
`strptime`/`strftime` round trip of `comment.created[:10]` through
`"%Y-%m-%d"` is the identity on the 10-character date prefix), labels, and
component names. -/
def processIssue (acc : TextAcc) (issue : Issue) : TextAcc :=
  let acc :=
    if optStrTruthy issue.description then
      let terms := (pyWords (issue.description.getD "")).foldl
        (fun m word => if word.length > 3 then bump m word else m) acc.common_terms
      { acc with common_terms := terms }
    else acc
  let acc := issue.comments.foldl
    (fun a c =>
      { a with
        total_comments := a.total_comments + 1
        total_comment_length := a.total_comment_length + c.body.length
        comment_frequency := bump a.comment_frequency (String.mk (c.created.data.take 10)) })
    acc
  let acc := { acc with labels := issue.labels.foldl bump acc.labels }
  { acc with components_referenced :=
      issue.components.foldl (fun m c => bump m c.name) acc.components_referenced }

/-- The `analyze_text_content` output record (`avg_comment_length` is a
Python float; embedded as a rational). -/
structure TextAnalysis where
  common_terms : List (String × Nat)
  mentions : List (String × Nat)
  labels : List (String × Nat)
  components_referenced : List (String × Nat)
  total_comments : Nat
  avg_comment_length : ℚ
  comment_frequency : List (String × Nat)
deriving DecidableEq

/-- The JQL string `analyze_text_content` issues for a project and lookback
window. -/
def textJql (w : World) (project_key : String) (days : Nat) : String :=
  "project = " ++ project_key ++ " AND updated >= \"" ++ w.dateStr days ++ "\""

/-- The issue loop of `analyze_text_content`: fold `processIssue` over the
windowed search results, starting from the freshly initialised `analysis`
dictionary. -/
def textScan (w : World) (project_key : String) (days : Nat) : TextAcc :=
  (w.searchIssues (textJql w project_key days) 1000).foldl
    processIssue ⟨[], [], [], [], 0, [], 0⟩

/-- `JiraAnalyzer.analyze_text_content`: raises when not connected, otherwise
tallies the windowed search results and finishes by computing the average
comment length (guarded by `total_comments > 0`), truncating the term table
to the 50 largest counts, and sorting the label and component tables. -/
def analyze_text_content (w : World) (st : AnalyzerState) (project_key : String)
    (days : Nat) : Except String TextAnalysis × List RemoteCall :=
  match st.jira with
  | none => (.error notConnectedMsg, [])
  | some _ =>
    let jql := textJql w project_key days
    let acc := textScan w project_key days
    let avg : ℚ :=
      if acc.total_comments > 0 then
        (acc.total_comment_length : ℚ) / (acc.total_comments : ℚ)
      else 0
    (.ok
      { common_terms := (sortByCountDesc acc.common_terms).take 50
        mentions := acc.mentions
        labels := sortByCountDesc acc.labels
        components_referenced := sortByCountDesc acc.components_referenced
        total_comments := acc.total_comments
        avg_comment_length := avg
        comment_frequency := acc.comment_frequency },
     [.search jql 1000])

/-! ## `JiraAnalyzer.get_cross_project_references` (analyzer.py, lines 224-273) -/

/-- An issue record in the `outgoing`/`incoming` tables. -/
structure CrossItem where
  key : String
  summary : String
  type : String
  status : String
  url : String
deriving DecidableEq

/-- The issue record `get_cross_project_references` builds. -/
def crossItemOf (w : World) (issue : Issue) : CrossItem :=
  { key := issue.key
    summary := issue.summary
    type := issue.issuetype
    status := issue.status
    url := w.serverUrl ++ "/browse/" ++ issue.key }

/-- The `references` dictionary of `get_cross_project_references`
(`related_issues` is initialised and never filled by the source). -/
structure CrossRefs where
  outgoing : List (String × List CrossItem)
  incoming : List (String × List CrossItem)
  shared_components : List (String × Finset String)
  related_issues : List CrossItem
deriving DecidableEq

/-- The text-reference JQL: issues of `p` whose description or a comment
mentions `q-`. -/
def crossJql (p q : String) : String :=
  "project = " ++ p ++ " AND (description ~ \"" ++ q ++ "-\" OR comment ~ \"" ++
    q ++ "-\")"

/-- One iteration of the `for related_project in related_projects` loop:
two capped searches, the append loops, and — when the client exposes
`project_components` — the component-set intersection, stored only when it is
non-empty. -/
def crossStep (w : World) (project_key : String) (refs : CrossRefs)
    (related_project : String) : CrossRefs × List RemoteCall :=
  let jqlOut := crossJql project_key related_project
  let outgoing_issues := w.searchIssues jqlOut 100
  let jqlIn := crossJql related_project project_key
  let incoming_issues := w.searchIssues jqlIn 100
  let outgoingTab := outgoing_issues.foldl
    (fun m i => dictAppend m related_project (crossItemOf w i)) refs.outgoing
  let refs := { refs with outgoing := outgoingTab }
  let incomingTab := incoming_issues.foldl
    (fun m i => dictAppend m related_project (crossItemOf w i)) refs.incoming
  let refs := { refs with incoming := incomingTab }
  if w.hasProjectComponents then
    let main_components := ((w.projectComponents project_key).map ComponentObj.name).toFinset
    let related_components :=
      ((w.projectComponents related_project).map ComponentObj.name).toFinset
    let shared := main_components ∩ related_components
    let refs :=
      if shared ≠ ∅ then
        { refs with shared_components :=
            dictInsert refs.shared_components related_project shared }
      else refs
    (refs, [.search jqlOut 100, .search jqlIn 100,
            .projectComponentsCall project_key, .projectComponentsCall related_project])
  else
    (refs, [.search jqlOut 100, .search jqlIn 100])

/-- One fold step of the `for related_project in related_projects` loop,
accumulating the references dictionary and the calls made so far. -/
def crossFoldStep (w : World) (project_key : String)
    (p : CrossRefs × List RemoteCall) (rp : String) :
    CrossRefs × List RemoteCall :=
  let (r, t) := crossStep w project_key p.1 rp
  (r, p.2 ++ t)

/-- `JiraAnalyzer.get_cross_project_references`: raises when not connected,
otherwise folds `crossStep` over the related projects. -/
def get_cross_project_references (w : World) (st : AnalyzerState)
    (project_key : String) (related_projects : List String) :
    Except String CrossRefs × List RemoteCall :=
  match st.jira with
  | none => (.error notConnectedMsg, [])
  | some _ =>
    let out := related_projects.foldl (crossFoldStep w project_key) (⟨[], [], [], []⟩, [])
    (.ok out.1, out.2)

/-! ## `JiraAnalyzer.get_project_info` and `analyze_project_metrics`
(src/server.py, lines 23-63) -/

/-- The `get_project_info` output record. -/
structure ProjectInfo where
  key : String
  name : String
  lead : String
  description : Option String
deriving DecidableEq

/-- `JiraAnalyzer.get_project_info` of src/server.py. -/
def get_project_info (w : World) (st : AnalyzerState) (project_key : String) :
    Except String ProjectInfo × List RemoteCall :=
  match st.jira with
  | none => (.error notConnectedMsg, [])
  | some _ =>
    let project := w.projectAt project_key
    (.ok ⟨project.key, project.name, project.lead.displayName, project.description⟩,
     [.project project_key])

/-- The `analyze_project_metrics` output record. -/
structure Metrics where
  total_issues : Nat
  by_type : List (String × Nat)
  by_status : List (String × Nat)
  by_priority : List (String × Nat)
deriving DecidableEq

/-- `JiraAnalyzer.analyze_project_metrics` of src/server.py: issue counts by
type, status and priority (`"No Priority"` when the priority is absent). -/
def analyze_project_metrics (w : World) (st : AnalyzerState) (project_key : String) :
    Except String Metrics × List RemoteCall :=
  match st.jira with
  | none => (.error notConnectedMsg, [])
  | some _ =>
    let jql := "project = " ++ project_key
    let issues := w.searchIssues jql 1000
    let metrics := issues.foldl
      (fun m issue =>
        { m with
          by_type := bump m.by_type issue.issuetype
          by_status := bump m.by_status issue.status
          by_priority := bump m.by_priority (issue.priority.getD "No Priority") })
      ⟨issues.length, [], [], []⟩
    (.ok metrics, [.search jql 1000])

/-! ## `get_help` (src/jira_analyzer/server.py, lines 98-163) -/

/-- The fixed `"connection"` help text. -/
def connectionHelp : String :=
  "\n        # JIRA Connection Help\n        \n        To connect to JIRA in read-only mode, you'll need:\n        1. JIRA server URL (e.g., https://your-domain.atlassian.net)\n        2. Either:\n           - Username and API token\n           - API token only\n        \n        API tokens can be generated from your Atlassian account settings.\n        \n        Note: This extension operates in read-only mode and cannot modify any JIRA data.\n        "

/-- The fixed `"analysis"` help text. -/
def analysisHelp : String :=
  "\n        # JIRA Analysis Features\n        \n        Available analysis tools:\n        1. Issue Details\n           - Full issue content\n           - Comment history\n           - Change history\n           - Related issues\n        \n        2. Search & Discovery\n           - Flexible issue search\n           - JQL filtering\n           - Cross-project references\n        \n        3. Content Analysis\n           - Text pattern analysis\n           - Common terms identification\n           - Comment patterns\n           - Label usage\n        \n        4. Relationship Analysis\n           - Issue dependencies\n           - Cross-project references\n           - Component sharing\n        "

/-- The fixed `"security"` help text. -/
def securityHelp : String :=
  "\n        # Security Best Practices\n        \n        1. Read-Only Access\n           - This extension cannot modify JIRA data\n           - All operations are read-only\n           - No state changes are possible\n        \n        2. Authentication\n           - Never store credentials in code\n           - Use environment variables for sensitive data\n           - Prefer API tokens over username/password\n           - Regularly rotate API tokens\n        \n        3. Data Access\n           - Only access projects you have permission to view\n           - Respect JIRA's security model\n           - Don't share sensitive data\n        "

/-- The fallback message of `help_topics.get(topic, ...)`. -/
def helpFallback : String :=
  "Topic not found. Available topics: connection, analysis, security"

/-- The `help_topics` dictionary. -/
def help_topics : List (String × String) :=
  [("connection", connectionHelp), ("analysis", analysisHelp),
   ("security", securityHelp)]

/-- `get_help` of src/jira_analyzer/server.py: a pure dictionary lookup with
a fallback. -/
def get_help (topic : String) : String :=
  ((help_topics.lookup topic).getD helpFallback)

/-! ## `JiraAnalyzer.connect` of src/jira_analyzer/src/server.py (lines 10-21)

This variant stores the server URL, constructs a token-auth client, and then
tests the connection with `self.jira.myself()`, all inside one `try`. -/

/-- The state of the src/jira_analyzer/src/server.py analyzer: `self.jira`
and `self.server`. -/
structure AnalyzerStateV2 where
  jira : Option Session
  server : Option String
deriving DecidableEq

/-- `JiraAnalyzer.connect` of src/jira_analyzer/src/server.py.  The `try`
body runs three statements in order: `self.server = server`,
`self.jira = JIRA(server=server, token_auth=api_token)`, and
`self.jira.myself()`; an exception at any point is caught and returned as a
string, leaving every assignment made so far in place. -/
def connectV2 (w : World) (st : AnalyzerStateV2) (server : String)
    (api_token : Option String) :
    Except String ConnectRet × AnalyzerStateV2 × List RemoteCall :=
  let st1 := { st with server := some server }
  match w.connectOutcome server (.token api_token) with
  | .error e => (.ok (.retStr e), st1, [.connectCall server (.token api_token)])
  | .ok sess =>
    let st2 := { st1 with jira := some sess }
    match w.myselfOutcome sess with
    | .ok _ =>
      (.ok .retTrue, st2, [.connectCall server (.token api_token), .myselfCall])
    | .error e =>
      (.ok (.retStr e), st2, [.connectCall server (.token api_token), .myselfCall])

/-! ## Specification vocabulary -/

/-- A trace of remote calls is read-only: every call is a read, and running
the trace leaves the remote tracker unchanged. -/
def ReadOnlyTrace (w : World) (tr : List RemoteCall) : Prop :=
  tr.all RemoteCall.isRead = true ∧ applyTrace w tr = w

/-- The visited/fetched bookkeeping contract of one traversal call relative
to its input visited set: the output visited set is the input extended by
exactly the fetched keys, no key is fetched twice, and no already-visited key
is fetched. -/
def VisitSpec (visited : List String) (r : RelAcc) : Prop :=
  r.2.1 = visited ++ r.2.2 ∧ r.2.2.Nodup ∧ ∀ k ∈ r.2.2, k ∉ visited

/-- The neighbor keys of a list of issue links, in processing order
(outward side then inward side of each link). -/
def neighborKeys (ls : List IssueLink) : List String :=
  ls.flatMap fun l =>
    (match l.outwardIssue with
     | some li => [li.key]
     | none => []) ++
    (match l.inwardIssue with
     | some li => [li.key]
     | none => [])

/-- A count table sorted by descending count. -/
def CountSortedDesc (l : List (String × Nat)) : Prop :=
  l.Pairwise fun a b => b.2 ≤ a.2

/-- The component-name set intersection of two projects, as computed from
the remote component metadata. -/
def sharedOf (w : World) (p q : String) : Finset String :=
  ((w.projectComponents p).map ComponentObj.name).toFinset ∩
    ((w.projectComponents q).map ComponentObj.name).toFinset

/-! ## Concrete example data (for witnesses and counterexamples) -/

/-- A plain issue with no optional content. -/
def defIssue : Issue :=
  { key := "X", summary := "plain", description := none, issuetype := "Task",
    status := "Open", priority := none, assignee := none, reporter := ⟨"rep"⟩,
    created := "2024-01-01", updated := "2024-01-02", labels := [],
    components := [], comments := [], changelog := [], issuelinks := [] }

/-- A single outward link to issue `k`. -/
def linkTo (k : String) : IssueLink :=
  { typeOutward := "blocks", typeInward := "is blocked by",
    outwardIssue := some ⟨k, "sum" ++ k, "Open"⟩, inwardIssue := none }

/-- A world in which issues `"A"` and `"B"` link to each other (a two-cycle),
every other issue has no links, searches return nothing, connecting fails
with `"no network"`, and component metadata is available. -/
def wC4 : World :=
  { issueAt := fun k =>
      if k = "A" then { defIssue with key := "A", issuelinks := [linkTo "B"] }
      else if k = "B" then { defIssue with key := "B", issuelinks := [linkTo "A"] }
      else defIssue
    searchIssues := fun _ _ => []
    projectAt := fun _ => ⟨"P", "Project P", ⟨"lead"⟩, none⟩
    projectComponents := fun p =>
      if p = "P" then [⟨"core"⟩, ⟨"ui"⟩]
      else if p = "Q" then [⟨"core"⟩, ⟨"db"⟩]
      else []
    hasProjectComponents := true
    connectOutcome := fun _ _ => .error "no network"
    myselfOutcome := fun _ => .ok ()
    dateStr := fun _ => "2026-01-01"
    serverUrl := "https://jira.example" }

/-- A comment with a given body and creation timestamp. -/
def mkComment (body created : String) : Comment :=
  { author := ⟨"alice"⟩, body := body, created := created, updated := created }

/-- First sample issue for the text analyzer. -/
def iT1 : Issue :=
  { defIssue with
    key := "T-1"
    description := some "Alpha beta gamma alpha BETA"
    comments := [mkComment "hello world" "2024-05-01T10:00:00.000+0000"]
    labels := ["bug", "ui"]
    components := [⟨"core"⟩] }

/-- Second sample issue for the text analyzer. -/
def iT2 : Issue :=
  { defIssue with
    key := "T-2"
    description := some "beta gamma delta war"
    labels := ["bug"]
    components := [⟨"core"⟩, ⟨"db"⟩] }

/-- A world whose searches return the two sample text issues. -/
def wText : World :=
  { wC4 with searchIssues := fun _ _ => [iT1, iT2] }

/-- A world in which the `JIRA` constructor succeeds with session 7 but the
`myself()` connection test fails with a 401. -/
def wMyselfFails : World :=
  { wC4 with
    connectOutcome := fun _ _ => .ok 7
    myselfOutcome := fun _ => .error "401 Unauthorized" }

/-! # Theorems -/

/-! ## C1: operations before `connect` -/

/-- C1: for every analyzer operation other than `connect` (`get_issue_details`,
`search_issues`, `analyze_issue_relationships`, `analyze_text_content`,
`get_cross_project_references`, `get_project_info`, `analyze_project_metrics`),
if no session has been established (`self.jira` is `None`), the call raises
`"Not connected to JIRA"` and performs no remote call. -/
theorem not_connected_guard (w : World) (issue_key project_key : String)
    (jql_filters : Option String) (max_results depth days : Nat)
    (related_projects : List String) :
    get_issue_details w ⟨none⟩ issue_key = (.error notConnectedMsg, []) ∧
    search_issues w ⟨none⟩ project_key jql_filters max_results =
      (.error notConnectedMsg, []) ∧
    analyze_issue_relationships w ⟨none⟩ issue_key depth =
      (.error notConnectedMsg, []) ∧
    analyze_text_content w ⟨none⟩ project_key days = (.error notConnectedMsg, []) ∧
    get_cross_project_references w ⟨none⟩ project_key related_projects =
      (.error notConnectedMsg, []) ∧
    get_project_info w ⟨none⟩ project_key = (.error notConnectedMsg, []) ∧
    analyze_project_metrics w ⟨none⟩ project_key = (.error notConnectedMsg, []) :=
  ⟨rfl, rfl, rfl, rfl, rfl, rfl, rfl⟩

/-! ## C2: `connect` never raises -/

/-- C2: for every input, `connect` never raises: when session establishment
succeeds it returns `True`, and when it fails with any exception it returns
the failure description as a string — in particular with absent credentials
the outcome is still a returned value, never a raised fault. -/
theorem connect_never_raises (w : World) (st : AnalyzerState) (server : String)
    (username api_token : Option String) :
    (∀ e, (connect w st server username api_token).1 ≠ Except.error e) ∧
    (∀ sess, w.connectOutcome server (authOf username api_token) = .ok sess →
      (connect w st server username api_token).1 = .ok .retTrue) ∧
    (∀ e, w.connectOutcome server (authOf username api_token) = .error e →
      (connect w st server username api_token).1 = .ok (.retStr e)) := by
  refine ⟨?_, ?_, ?_⟩
  · intro e
    cases h : w.connectOutcome server (authOf username api_token) <;>
      simp [connect, h]
  · intro sess h
    simp [connect, h]
  · intro e h
    simp [connect, h]

/-- Witness for C2, with no credentials supplied and a failing constructor:
the call returns the failure string `"no network"` as a value. -/
theorem connect_never_raises_witness :
    wC4.connectOutcome "https://jira.example" (authOf none none) =
      .error "no network" ∧
    (connect wC4 ⟨none⟩ "https://jira.example" none none).1 =
      .ok (.retStr "no network") :=
  ⟨rfl, (connect_never_raises wC4 ⟨none⟩ "https://jira.example" none none).2.2
    "no network" rfl⟩

/-! ## C9: the help resource -/

/-- C9: `get_help` is a pure, total, deterministic lookup: each of the three
topic keys returns its fixed documentation string, and every other topic key
returns the fixed fallback message. -/
theorem get_help_lookup :
    get_help "connection" = connectionHelp ∧
    get_help "analysis" = analysisHelp ∧
    get_help "security" = securityHelp ∧
    ∀ topic : String, topic ≠ "connection" → topic ≠ "analysis" →
      topic ≠ "security" → get_help topic = helpFallback := by
  refine ⟨rfl, rfl, rfl, ?_⟩
  intro topic h1 h2 h3
  have e1 : (topic == "connection") = false := beq_eq_false_iff_ne.mpr h1
  have e2 : (topic == "analysis") = false := beq_eq_false_iff_ne.mpr h2
  have e3 : (topic == "security") = false := beq_eq_false_iff_ne.mpr h3
  simp [get_help, help_topics, List.lookup, e1, e2, e3]

/-- Witness for C9: an unknown topic gets the fallback message. -/
theorem get_help_lookup_witness : get_help "workflow" = helpFallback :=
  get_help_lookup.2.2.2 "workflow" (by decide) (by decide) (by decide)

/-! ## C8: read-only traces -/

/-- A read call does not change the remote tracker. -/
lemma applyCall_read (w : World) (c : RemoteCall) (h : c.isRead = true) :
    applyCall w c = w := by
  cases c <;> simp_all [RemoteCall.isRead, applyCall]

/-- A trace of read calls does not change the remote tracker. -/
lemma applyTrace_reads : ∀ (tr : List RemoteCall) (w : World),
    tr.all RemoteCall.isRead = true → applyTrace w tr = w := by
  intro tr
  induction tr with
  | nil => intro w _; rfl
  | cons c cs ih =>
    intro w h
    rw [List.all_cons, Bool.and_eq_true] at h
    rw [applyTrace, applyCall_read w c h.1, ih w h.2]

/-- A trace made only of read calls is read-only. -/
lemma readOnly_of_all (w : World) (tr : List RemoteCall)
    (h : tr.all RemoteCall.isRead = true) : ReadOnlyTrace w tr :=
  ⟨h, applyTrace_reads tr w h⟩

/-- Issue-fetch traces are made of read calls. -/
lemma all_isRead_map_issue (l : List String) :
    (l.map RemoteCall.issue).all RemoteCall.isRead = true := by
  induction l with
  | nil => rfl
  | cons k ks ih => simp_all [RemoteCall.isRead]

/-- Each cross-project loop iteration performs only read calls. -/
lemma crossStep_trace_reads (w : World) (pk : String) (refs : CrossRefs)
    (rp : String) : ((crossStep w pk refs rp).2).all RemoteCall.isRead = true := by
  unfold crossStep
  split <;> simp [RemoteCall.isRead]

/-- The cross-project fold accumulates only read calls. -/
lemma crossFold_trace_reads (w : World) (pk : String) :
    ∀ (rps : List String) (acc : CrossRefs × List RemoteCall),
      acc.2.all RemoteCall.isRead = true →
      ((rps.foldl (crossFoldStep w pk) acc).2).all RemoteCall.isRead = true := by
  intro rps
  induction rps with
  | nil => intro acc h; simpa using h
  | cons rp rest ih =>
    intro acc h
    rw [List.foldl_cons]
    refine ih _ ?_
    simp only [crossFoldStep, List.all_append]
    exact (Bool.and_eq_true _ _).mpr ⟨h, crossStep_trace_reads w pk acc.1 rp⟩

/-- C8: every analyzer operation is read-only — its remote-call trace contains
only read calls, and running that trace leaves every issue, comment, link and
project of the remote tracker unchanged. -/
theorem analyzer_read_only (w : World) (st : AnalyzerState) (st2 : AnalyzerStateV2)
    (server issue_key project_key : String)
    (username api_token jql_filters : Option String)
    (max_results depth days : Nat) (related_projects : List String) :
    ReadOnlyTrace w (connect w st server username api_token).2.2 ∧
    ReadOnlyTrace w (get_issue_details w st issue_key).2 ∧
    ReadOnlyTrace w (search_issues w st project_key jql_filters max_results).2 ∧
    ReadOnlyTrace w (analyze_issue_relationships w st issue_key depth).2 ∧
    ReadOnlyTrace w (analyze_text_content w st project_key days).2 ∧
    ReadOnlyTrace w (get_cross_project_references w st project_key related_projects).2 ∧
    ReadOnlyTrace w (get_project_info w st project_key).2 ∧
    ReadOnlyTrace w (analyze_project_metrics w st project_key).2 ∧
    ReadOnlyTrace w (connectV2 w st2 server api_token).2.2 := by
  obtain ⟨j⟩ := st
  refine ⟨?_, ?_, ?_, ?_, ?_, ?_, ?_, ?_, ?_⟩
  · refine readOnly_of_all _ _ ?_
    cases h : w.connectOutcome server (authOf username api_token) <;>
      simp [connect, h, RemoteCall.isRead]
  · refine readOnly_of_all _ _ ?_
    cases j <;> simp [get_issue_details, RemoteCall.isRead]
  · refine readOnly_of_all _ _ ?_
    cases j <;> simp [search_issues, RemoteCall.isRead]
  · refine readOnly_of_all _ _ ?_
    cases j with
    | none => simp [analyze_issue_relationships]
    | some s =>
      simp only [analyze_issue_relationships]
      exact all_isRead_map_issue _
  · refine readOnly_of_all _ _ ?_
    cases j <;> simp [analyze_text_content, RemoteCall.isRead]
  · refine readOnly_of_all _ _ ?_
    cases j with
    | none => simp [get_cross_project_references]
    | some s =>
      simp only [get_cross_project_references]
      exact crossFold_trace_reads w project_key related_projects _ rfl
  · refine readOnly_of_all _ _ ?_
    cases j <;> simp [get_project_info, RemoteCall.isRead]
  · refine readOnly_of_all _ _ ?_
    cases j <;> simp [analyze_project_metrics, RemoteCall.isRead]
  · refine readOnly_of_all _ _ ?_
    cases h : w.connectOutcome server (.token api_token) with
    | error e => simp [connectV2, h, RemoteCall.isRead]
    | ok sess =>
      cases h2 : w.myselfOutcome sess <;>
        simp [connectV2, h, h2, RemoteCall.isRead]

/-! ## C10: atomicity of `connect` on failure -/

/-- Counterexample to C10 as stated: in the src/jira_analyzer/src/server.py
variant of `connect`, when the `JIRA` constructor succeeds (session 7) but the
`myself()` connection test then fails, the call returns an error string, yet
the stored session handle has changed from `some 3` to `some 7`. -/
theorem connect_atomicity_counterexample :
    (connectV2 wMyselfFails ⟨some 3, none⟩ "https://jira.example" (some "tok")).1 =
      .ok (.retStr "401 Unauthorized") ∧
    (connectV2 wMyselfFails ⟨some 3, none⟩ "https://jira.example" (some "tok")).2.1.jira =
      some 7 ∧
    some 7 ≠ (⟨some 3, none⟩ : AnalyzerStateV2).jira :=
  ⟨rfl, rfl, by decide⟩

/-- C10 amended: in analyzer.py, `connect` is atomic on failure — an
error-string return leaves the whole analyzer state (hence the session
handle) unchanged.  In the src/jira_analyzer/src/server.py variant the handle
is unchanged only when the `JIRA` constructor itself fails; when the
constructor succeeds with a new session and the subsequent `myself()` test
fails, the error-string return leaves the new session stored. -/
theorem connect_failure_state (w : World) (st : AnalyzerState)
    (st2 : AnalyzerStateV2) (server : String) (username api_token : Option String) :
    (∀ e, w.connectOutcome server (authOf username api_token) = .error e →
      (connect w st server username api_token).2.1 = st) ∧
    (∀ e, w.connectOutcome server (.token api_token) = .error e →
      (connectV2 w st2 server api_token).2.1.jira = st2.jira) ∧
    (∀ sess e, w.connectOutcome server (.token api_token) = .ok sess →
      w.myselfOutcome sess = .error e →
      (connectV2 w st2 server api_token).1 = .ok (.retStr e) ∧
      (connectV2 w st2 server api_token).2.1.jira = some sess) := by
  refine ⟨?_, ?_, ?_⟩
  · intro e h
    simp [connect, h]
  · intro e h
    simp [connectV2, h]
  · intro sess e h h2
    simp [connectV2, h, h2]

/-- Witness for the amended C10: a failing constructor leaves both variants'
session handles unchanged, and the 401-on-`myself` run stores the new session. -/
theorem connect_failure_state_witness :
    (connect wC4 ⟨some 3⟩ "https://jira.example" none (some "tok")).2.1 =
      (⟨some 3⟩ : AnalyzerState) ∧
    (connectV2 wC4 ⟨some 3, none⟩ "https://jira.example" (some "tok")).2.1.jira =
      (⟨some 3, none⟩ : AnalyzerStateV2).jira ∧
    (connectV2 wMyselfFails ⟨some 3, none⟩ "https://jira.example" (some "tok")).1 =
      .ok (.retStr "401 Unauthorized") ∧
    (connectV2 wMyselfFails ⟨some 3, none⟩ "https://jira.example" (some "tok")).2.1.jira =
      some 7 :=
  ⟨(connect_failure_state wC4 ⟨some 3⟩ ⟨some 3, none⟩ "https://jira.example"
      none (some "tok")).1 "no network" rfl,
   (connect_failure_state wC4 ⟨some 3⟩ ⟨some 3, none⟩ "https://jira.example"
      none (some "tok")).2.1 "no network" rfl,
   ((connect_failure_state wMyselfFails ⟨some 3⟩ ⟨some 3, none⟩ "https://jira.example"
      none (some "tok")).2.2 7 "401 Unauthorized" rfl rfl).1,
   ((connect_failure_state wMyselfFails ⟨some 3⟩ ⟨some 3, none⟩ "https://jira.example"
      none (some "tok")).2.2 7 "401 Unauthorized" rfl rfl).2⟩

/-! ## Traversal lemmas -/

/-- A fold preserves any invariant its step preserves. -/
lemma foldl_preserve {α β : Type} (P : α → Prop) (f : α → β → α)
    (hf : ∀ a b, P a → P (f a b)) :
    ∀ (l : List β) (a : α), P a → P (l.foldl f a) := by
  intro l
  induction l with
  | nil => intro a h; exact h
  | cons b rest ih => intro a h; exact ih (f a b) (hf a b h)

/-- Out of fuel: the expansion is empty and the state is untouched. -/
lemma goLinked_zero (w : World) (depth : Nat) (key : String) (cd : Nat)
    (visited : List String) : goLinked w depth 0 key cd visited = ([], visited, []) :=
  rfl

/-- A call on an already-visited key returns the empty expansion and leaves
the state untouched, whatever the fuel. -/
lemma goLinked_visited (w : World) (depth fuel : Nat) (key : String) (cd : Nat)
    (visited : List String) (h : key ∈ visited) :
    goLinked w depth fuel key cd visited = ([], visited, []) := by
  cases fuel with
  | zero => rfl
  | succ f => simp [goLinked, h]

/-- `relStep` preserves the visited/fetched contract when its recursion
satisfies it. -/
lemma relStep_visitSpec (V : List String) (ty : String)
    (side : Option LinkedIssue) (recur : String → List String → RelAcc)
    (hrec : ∀ k v, VisitSpec v (recur k v)) (acc : RelAcc)
    (hacc : VisitSpec V acc) : VisitSpec V (relStep ty side recur acc) := by
  cases side with
  | none => simpa [relStep] using hacc
  | some li =>
    obtain ⟨h1, h2, h3⟩ := hacc
    obtain ⟨g1, g2, g3⟩ := hrec li.key acc.2.1
    refine ⟨?_, ?_, ?_⟩
    · show (recur li.key acc.2.1).2.1 = V ++ (acc.2.2 ++ (recur li.key acc.2.1).2.2)
      rw [g1, h1, List.append_assoc]
    · show (acc.2.2 ++ (recur li.key acc.2.1).2.2).Nodup
      refine List.Nodup.append h2 g2 ?_
      intro a ha hfa
      exact g3 a hfa (h1 ▸ List.mem_append_right V ha)
    · show ∀ k ∈ acc.2.2 ++ (recur li.key acc.2.1).2.2, k ∉ V
      intro k hk
      rcases List.mem_append.mp hk with hk | hk
      · exact h3 k hk
      · intro hkV
        exact g3 k hk (h1 ▸ List.mem_append_left acc.2.2 hkV)

/-- The visited/fetched contract of the traversal: the output visited set is
the input plus exactly the fetched keys, no key is fetched twice, and no
already-visited key is refetched. -/
lemma goLinked_visitSpec (w : World) (depth : Nat) :
    ∀ (fuel : Nat) (key : String) (cd : Nat) (visited : List String),
      VisitSpec visited (goLinked w depth fuel key cd visited) := by
  intro fuel
  induction fuel with
  | zero =>
    intro key cd visited
    exact ⟨by simp [goLinked_zero], List.nodup_nil, by simp [goLinked_zero]⟩
  | succ f ih =>
    intro key cd visited
    by_cases hguard : cd > depth ∨ key ∈ visited
    · rw [show goLinked w depth (f + 1) key cd visited = ([], visited, []) by
        simp [goLinked, hguard]]
      exact ⟨by simp, List.nodup_nil, by simp⟩
    · have hkey : key ∉ visited := fun hk => hguard (Or.inr hk)
      have hout := foldl_preserve (VisitSpec (visited ++ [key]))
        (fun acc link =>
          relStep link.typeInward link.inwardIssue
            (fun k v => goLinked w depth f k (cd + 1) v)
            (relStep link.typeOutward link.outwardIssue
              (fun k v => goLinked w depth f k (cd + 1) v) acc))
        (fun acc link hacc =>
          relStep_visitSpec _ _ _ _ (fun k v => ih k (cd + 1) v) _
            (relStep_visitSpec _ _ _ _ (fun k v => ih k (cd + 1) v) _ hacc))
        (w.issueAt key).issuelinks ([], visited ++ [key], [])
        ⟨by simp, List.nodup_nil, by simp⟩
      obtain ⟨o1, o2, o3⟩ := hout
      have hgo : goLinked w depth (f + 1) key cd visited =
          (let out := ((w.issueAt key).issuelinks).foldl
            (fun acc link =>
              relStep link.typeInward link.inwardIssue
                (fun k v => goLinked w depth f k (cd + 1) v)
                (relStep link.typeOutward link.outwardIssue
                  (fun k v => goLinked w depth f k (cd + 1) v) acc))
            ([], visited ++ [key], [])
           (out.1, out.2.1, key :: out.2.2)) := by
        simp only [goLinked]
        rw [if_neg hguard]
      rw [hgo]
      refine ⟨?_, ?_, ?_⟩
      · show _ = visited ++ (key :: _)
        rw [o1, List.append_assoc]
        rfl
      · refine List.nodup_cons.mpr ⟨?_, o2⟩
        intro hk
        exact o3 key hk (List.mem_append_right visited (List.mem_singleton.mpr rfl))
      · intro k hk
        rcases List.mem_cons.mp hk with hk | hk
        · exact hk ▸ hkey
        · intro hkV
          exact o3 k hk (List.mem_append_left [key] hkV)

/-! ## C3: traversal bounds -/

/-- C3: the relationship traversal fetches each issue key at most once (the
visited set guards against cycles: its remote-call trace has no duplicates),
a call at a recursion level greater than the depth bound returns the empty
expansion untouched, and depth 1 on an issue with no links returns an empty
relationship map (the traversal being a total function, it terminates). -/
theorem relationship_traversal (w : World) (sess : Session) (issue_key : String)
    (depth : Nat) :
    (∀ r tr, analyze_issue_relationships w ⟨some sess⟩ issue_key depth = (.ok r, tr) →
      tr.Nodup) ∧
    (∀ key current_depth visited, current_depth > depth →
      get_linked_issues w depth key current_depth visited = ([], visited, [])) ∧
    ((w.issueAt issue_key).issuelinks = [] →
      analyze_issue_relationships w ⟨some sess⟩ issue_key 1 =
        (.ok ⟨issue_key, []⟩, [.issue issue_key])) := by
  refine ⟨?_, ?_, ?_⟩
  · intro r tr h
    have h2 := congrArg Prod.snd h
    simp only [analyze_issue_relationships] at h2
    rw [← h2]
    refine List.Nodup.map ?_ (goLinked_visitSpec w depth _ issue_key 1 []).2.1
    intro a b hab
    injection hab
  · intro key current_depth visited hcd
    have hz : depth + 1 - current_depth = 0 := by omega
    rw [get_linked_issues, hz, goLinked_zero]
  · intro hlinks
    simp only [analyze_issue_relationships, get_linked_issues]
    norm_num
    simp [goLinked, hlinks]

/-- Witness for C3 on the two-cycle world: the depth-2 run from `"A"` fetches
`"A"` and `"B"` once each, an over-depth call is the identity, and the
linkless issue `"X"` at depth 1 gives an empty relationship map. -/
theorem relationship_traversal_witness :
    ([RemoteCall.issue "A", RemoteCall.issue "B"]).Nodup ∧
    get_linked_issues wC4 2 "Z" 3 ["v"] = ([], ["v"], []) ∧
    analyze_issue_relationships wC4 ⟨some 0⟩ "X" 1 =
      (.ok ⟨"X", []⟩, [.issue "X"]) :=
  ⟨(relationship_traversal wC4 0 "A" 2).1
      ⟨"A", [("B", .mk "blocks" "sumB" "Open"
        [("A", .mk "blocks" "sumA" "Open" [])])]⟩
      [.issue "A", .issue "B"] rfl,
   (relationship_traversal wC4 0 "A" 2).2.1 "Z" 3 ["v"] (by decide),
   (relationship_traversal wC4 0 "X" 1).2.2 rfl⟩

/-! ## C4: entries for visited neighbors -/

/-- Looking up in a dict after `m[k] = v`. -/
lemma lookup_dictInsert {α : Type} (m : List (String × α)) (k : String) (v : α)
    (k' : String) :
    (dictInsert m k v).lookup k' = if k' = k then some v else m.lookup k' := by
  induction m with
  | nil =>
    by_cases h : k' = k
    · simp [dictInsert, List.lookup, h]
    · have hb : (k' == k) = false := beq_eq_false_iff_ne.mpr h
      simp [dictInsert, List.lookup, h, hb]
  | cons q rest ih =>
    obtain ⟨k0, v0⟩ := q
    by_cases h0 : k0 = k
    · subst h0
      by_cases h' : k' = k0
      · simp [dictInsert, List.lookup, h']
      · have hb : (k' == k0) = false := beq_eq_false_iff_ne.mpr h'
        simp [dictInsert, List.lookup, h', hb]
    · by_cases h' : k' = k0
      · subst h'
        have hk : ¬k' = k := h0
        simp [dictInsert, List.lookup, h0, hk]
      · have hb : (k' == k0) = false := beq_eq_false_iff_ne.mpr h'
        simp [dictInsert, List.lookup, h0, hb, ih]

/-- Membership after `m[k] = v`: either an old entry or the new one. -/
lemma mem_dictInsert {α : Type} (m : List (String × α)) (k : String) (v : α)
    (p : String × α) (hp : p ∈ dictInsert m k v) : p ∈ m ∨ p = (k, v) := by
  induction m with
  | nil =>
    right
    simpa [dictInsert] using hp
  | cons q rest ih =>
    obtain ⟨k0, v0⟩ := q
    by_cases h0 : k0 = k
    · rcases List.mem_cons.mp (by simpa [dictInsert, h0] using hp) with h | h
      · right; exact h
      · left; exact List.mem_cons_of_mem _ h
    · rcases List.mem_cons.mp (by simpa [dictInsert, h0] using hp) with h | h
      · left; exact h ▸ List.mem_cons_self _ _
      · rcases ih h with h | h
        · left; exact List.mem_cons_of_mem _ h
        · right; exact h

/-- Key presence after one `relStep`: the accumulated keys plus the side's
neighbor key, if that side is present. -/
lemma relStep_lookup_isSome (ty : String) (side : Option LinkedIssue)
    (recur : String → List String → RelAcc) (acc : RelAcc) (k : String) :
    (((relStep ty side recur acc).1.lookup k).isSome = true) ↔
      ((acc.1.lookup k).isSome = true ∨ ∃ li, side = some li ∧ k = li.key) := by
  cases side with
  | none => simp [relStep]
  | some li =>
    show (((dictInsert acc.1 li.key _).lookup k).isSome = true) ↔ _
    rw [lookup_dictInsert]
    by_cases h : k = li.key <;> simp [h]

/-- Key coverage of the per-level link loop: the keys present after the fold
are the keys present before plus the neighbor keys of the processed links. -/
lemma foldl_lookup_isSome (recur : String → List String → RelAcc) :
    ∀ (ls : List IssueLink) (acc : RelAcc) (k : String),
      (((ls.foldl (fun acc link =>
          relStep link.typeInward link.inwardIssue recur
            (relStep link.typeOutward link.outwardIssue recur acc)) acc).1.lookup
          k).isSome = true) ↔
        ((acc.1.lookup k).isSome = true ∨ k ∈ neighborKeys ls) := by
  intro ls
  induction ls with
  | nil =>
    intro acc k
    simp [neighborKeys]
  | cons l rest ih =>
    intro acc k
    rw [List.foldl_cons, ih]
    rw [relStep_lookup_isSome, relStep_lookup_isSome]
    cases ho : l.outwardIssue <;> cases hi : l.inwardIssue <;>
      simp [neighborKeys, ho, hi, or_assoc]

/-- Entries whose key was already visited carry an empty nested expansion,
preserved along the per-level loop. -/
lemma relStep_visited_links (V : List String) (ty : String)
    (side : Option LinkedIssue) (recur : String → List String → RelAcc)
    (hrec_spec : ∀ k v, VisitSpec v (recur k v))
    (hrec_mem : ∀ k v, k ∈ v → recur k v = ([], v, []))
    (acc : RelAcc)
    (h : (∀ p ∈ acc.1, p.1 ∈ V → RelEntry.links p.2 = []) ∧ V ⊆ acc.2.1) :
    (∀ p ∈ (relStep ty side recur acc).1, p.1 ∈ V → RelEntry.links p.2 = []) ∧
      V ⊆ (relStep ty side recur acc).2.1 := by
  cases side with
  | none => simpa [relStep] using h
  | some li =>
    constructor
    · intro p hp hpV
      rcases mem_dictInsert _ _ _ p hp with hp | hp
      · exact h.1 p hp hpV
      · subst hp
        show RelEntry.links (.mk ty li.summary li.status (recur li.key acc.2.1).1) = []
        have hmem : li.key ∈ acc.2.1 := h.2 hpV
        rw [hrec_mem li.key acc.2.1 hmem]
        rfl
    · show V ⊆ (recur li.key acc.2.1).2.1
      rw [(hrec_spec li.key acc.2.1).1]
      exact fun x hx => List.mem_append_left _ (h.2 hx)

/-- Counterexample to C4 as stated: in the two-cycle world, the level that
expands `"B"` with `"A"` already visited still emits an output entry for the
link back to `"A"` (with an empty nested expansion) — a link to an
already-visited key does produce an entry. -/
theorem visited_link_entry_counterexample :
    "A" ∈ (["A"] : List String) ∧
    (get_linked_issues wC4 2 "B" 2 ["A"]).1.lookup "A" =
      some (RelEntry.mk "blocks" "sumA" "Open" []) :=
  ⟨by decide, rfl⟩

/-- C4 amended: at each level of the traversal an output entry
{link-type, neighbor summary, neighbor status, nested expansion} is emitted
for every link side present, whether or not the neighbor key was already
visited: the emitted keys are exactly the neighbor keys of the issue's links,
and the entry of a neighbor that was already visited when the level started
carries an empty nested expansion (instead of producing no entry). -/
theorem link_entries_amended (w : World) (depth : Nat) (key : String)
    (current_depth : Nat) (visited : List String)
    (hcd : current_depth ≤ depth) (hkey : key ∉ visited) :
    (∀ k, (((get_linked_issues w depth key current_depth visited).1.lookup k).isSome
        = true) ↔ k ∈ neighborKeys (w.issueAt key).issuelinks) ∧
    (∀ p ∈ (get_linked_issues w depth key current_depth visited).1,
      p.1 ∈ visited → RelEntry.links p.2 = []) := by
  obtain ⟨f, hf⟩ : ∃ f, depth + 1 - current_depth = f + 1 :=
    ⟨depth - current_depth, by omega⟩
  have hguard : ¬(current_depth > depth ∨ key ∈ visited) := by
    push_neg
    exact ⟨by omega, hkey⟩
  have hgo1 : (get_linked_issues w depth key current_depth visited).1 =
      (((w.issueAt key).issuelinks).foldl
        (fun acc link =>
          relStep link.typeInward link.inwardIssue
            (fun k v => goLinked w depth f k (current_depth + 1) v)
            (relStep link.typeOutward link.outwardIssue
              (fun k v => goLinked w depth f k (current_depth + 1) v) acc))
        ([], visited ++ [key], [])).1 := by
    rw [get_linked_issues, hf]
    simp only [goLinked]
    rw [if_neg hguard]
  constructor
  · intro k
    rw [hgo1, foldl_lookup_isSome]
    simp [List.lookup]
  · intro p hp hpV
    rw [hgo1] at hp
    have hfold := foldl_preserve
      (fun acc : RelAcc =>
        (∀ p ∈ acc.1, p.1 ∈ visited → RelEntry.links p.2 = []) ∧
          visited ⊆ acc.2.1)
      (fun acc link =>
        relStep link.typeInward link.inwardIssue
          (fun k v => goLinked w depth f k (current_depth + 1) v)
          (relStep link.typeOutward link.outwardIssue
            (fun k v => goLinked w depth f k (current_depth + 1) v) acc))
      (fun acc link hacc =>
        relStep_visited_links visited _ _ _
          (fun k v => goLinked_visitSpec w depth f k (current_depth + 1) v)
          (fun k v hkv => goLinked_visited w depth f k (current_depth + 1) v hkv) _
          (relStep_visited_links visited _ _ _
            (fun k v => goLinked_visitSpec w depth f k (current_depth + 1) v)
            (fun k v hkv => goLinked_visited w depth f k (current_depth + 1) v hkv) _
            hacc))
      (w.issueAt key).issuelinks ([], visited ++ [key], [])
      ⟨by simp, fun x hx => List.mem_append_left _ hx⟩
    exact hfold.1 p hp hpV

/-- Witness for the amended C4: expanding `"B"` at level 2 with `"A"`
already visited emits an entry keyed `"A"` (the neighbor key), and that
entry's nested expansion is empty. -/
theorem link_entries_amended_witness :
    (((get_linked_issues wC4 2 "B" 2 ["A"]).1.lookup "A").isSome = true) ∧
    RelEntry.links (.mk "blocks" "sumA" "Open" []) = [] :=
  ⟨((link_entries_amended wC4 2 "B" 2 ["A"] (by decide) (by decide)).1 "A").mpr
      (by decide),
   (link_entries_amended wC4 2 "B" 2 ["A"] (by decide) (by decide)).2
      ("A", .mk "blocks" "sumA" "Open" []) (List.Mem.head _) (by decide)⟩

/-! ## C5: sorting and truncation of the text tables -/

/-- Stable descending insertion permutes. -/
lemma insertByCountDesc_perm (x : String × Nat) (l : List (String × Nat)) :
    List.Perm (insertByCountDesc x l) (x :: l) := by
  induction l with
  | nil => rfl
  | cons y ys ih =>
    by_cases h : y.2 > x.2
    · rw [insertByCountDesc, if_pos h]
      exact (ih.cons y).trans (List.Perm.swap x y ys)
    · rw [insertByCountDesc, if_neg h]

/-- The stable descending sort permutes its input. -/
lemma sortByCountDesc_perm (l : List (String × Nat)) :
    List.Perm (sortByCountDesc l) l := by
  induction l with
  | nil => rfl
  | cons x xs ih =>
    exact (insertByCountDesc_perm x (sortByCountDesc xs)).trans (ih.cons x)

/-- Stable descending insertion preserves descending order. -/
lemma insertByCountDesc_sorted (x : String × Nat) (l : List (String × Nat))
    (h : CountSortedDesc l) : CountSortedDesc (insertByCountDesc x l) := by
  induction l with
  | nil => simp [insertByCountDesc, CountSortedDesc]
  | cons y ys ih =>
    rw [CountSortedDesc, List.pairwise_cons] at h
    obtain ⟨hy, hys⟩ := h
    by_cases hc : y.2 > x.2
    · rw [insertByCountDesc, if_pos hc]
      rw [CountSortedDesc, List.pairwise_cons]
      refine ⟨?_, ih hys⟩
      intro b hb
      rcases List.mem_cons.mp ((insertByCountDesc_perm x ys).mem_iff.mp hb) with hb | hb
      · exact hb ▸ Nat.le_of_lt hc
      · exact hy b hb
    · rw [insertByCountDesc, if_neg hc]
      rw [CountSortedDesc, List.pairwise_cons]
      refine ⟨?_, List.pairwise_cons.mpr ⟨hy, hys⟩⟩
      intro b hb
      rcases List.mem_cons.mp hb with hb | hb
      · exact hb ▸ Nat.le_of_not_lt hc
      · exact Nat.le_trans (hy b hb) (Nat.le_of_not_lt hc)

/-- The stable descending sort sorts by descending count. -/
lemma sortByCountDesc_sorted (l : List (String × Nat)) :
    CountSortedDesc (sortByCountDesc l) := by
  induction l with
  | nil => exact List.Pairwise.nil
  | cons x xs ih => exact insertByCountDesc_sorted x (sortByCountDesc xs) ih

/-- Inserting `x` keeps it ahead of all equal counts: the count-class of
`x.2` gains `x` at the front. -/
lemma filter_insertByCountDesc_self (x : String × Nat) (l : List (String × Nat)) :
    (insertByCountDesc x l).filter (fun p => p.2 == x.2) =
      x :: l.filter (fun p => p.2 == x.2) := by
  induction l with
  | nil => simp [insertByCountDesc]
  | cons y ys ih =>
    by_cases h : y.2 > x.2
    · have hyne : (y.2 == x.2) = false :=
        beq_eq_false_iff_ne.mpr (Nat.ne_of_gt h)
      rw [insertByCountDesc, if_pos h]
      simp [List.filter_cons, hyne, ih]
    · rw [insertByCountDesc, if_neg h]
      simp [List.filter_cons]

/-- Inserting `x` does not disturb the other count-classes. -/
lemma filter_insertByCountDesc_ne (x : String × Nat) (l : List (String × Nat))
    (c : Nat) (h : ¬c = x.2) :
    (insertByCountDesc x l).filter (fun p => p.2 == c) =
      l.filter (fun p => p.2 == c) := by
  have hxne : (x.2 == c) = false := beq_eq_false_iff_ne.mpr fun hx => h hx.symm
  induction l with
  | nil => simp [insertByCountDesc, hxne]
  | cons y ys ih =>
    by_cases hgt : y.2 > x.2
    · rw [insertByCountDesc, if_pos hgt]
      simp [List.filter_cons, ih]
    · rw [insertByCountDesc, if_neg hgt]
      simp [List.filter_cons, hxne]

/-- Stability of the descending sort: each count-class keeps its original
(first-encounter) order. -/
lemma sortByCountDesc_stable (l : List (String × Nat)) (c : Nat) :
    (sortByCountDesc l).filter (fun p => p.2 == c) =
      l.filter (fun p => p.2 == c) := by
  induction l with
  | nil => rfl
  | cons x xs ih =>
    by_cases hc : c = x.2
    · subst hc
      rw [sortByCountDesc, filter_insertByCountDesc_self, ih]
      simp [List.filter_cons]
    · have hxne : (x.2 == c) = false := beq_eq_false_iff_ne.mpr fun hx => hc hx.symm
      rw [sortByCountDesc, filter_insertByCountDesc_ne x _ c hc, ih]
      simp [List.filter_cons, hxne]

/-- C5: the `common_terms` table has at most 50 entries, is ordered by
descending count with ties kept in first-encounter order (the sort is stable:
each count-class keeps the tally's original order, and the emitted table is
the 50-entry prefix of that stable sort), while the `labels` and
`components_referenced` tables are full permutations of their tallies
(never truncated), sorted by descending count. -/
theorem text_tables_sorted (w : World) (sess : Session) (project_key : String)
    (days : Nat) (r : TextAnalysis)
    (h : (analyze_text_content w ⟨some sess⟩ project_key days).1 = .ok r) :
    r.common_terms.length ≤ 50 ∧
    CountSortedDesc r.common_terms ∧
    r.common_terms =
      (sortByCountDesc (textScan w project_key days).common_terms).take 50 ∧
    (∀ c, (sortByCountDesc (textScan w project_key days).common_terms).filter
        (fun p => p.2 == c) =
      (textScan w project_key days).common_terms.filter (fun p => p.2 == c)) ∧
    CountSortedDesc r.labels ∧
    List.Perm r.labels (textScan w project_key days).labels ∧
    CountSortedDesc r.components_referenced ∧
    List.Perm r.components_referenced (textScan w project_key days).components_referenced := by
  simp only [analyze_text_content] at h
  rw [Except.ok.injEq] at h
  subst h
  refine ⟨List.length_take_le _ _, ?_, rfl, ?_, ?_, ?_, ?_, ?_⟩
  · exact List.Pairwise.sublist (List.take_sublist _ _) (sortByCountDesc_sorted _)
  · exact fun c => sortByCountDesc_stable _ c
  · exact sortByCountDesc_sorted _
  · exact sortByCountDesc_perm _
  · exact sortByCountDesc_sorted _
  · exact sortByCountDesc_perm _

/-- Witness for C5 on the two-issue sample world: the term table is
`beta 3, alpha 2, gamma 2, delta 1` — descending, with the tie between
`alpha` and `gamma` kept in encounter order — and the label/component tables
are sorted, untruncated. -/
theorem text_tables_sorted_witness :
    ([("beta", 3), ("alpha", 2), ("gamma", 2), ("delta", 1)] :
        List (String × Nat)).length ≤ 50 ∧
    CountSortedDesc [("beta", 3), ("alpha", 2), ("gamma", 2), ("delta", 1)] ∧
    ([("beta", 3), ("alpha", 2), ("gamma", 2), ("delta", 1)] :
        List (String × Nat)) =
      (sortByCountDesc (textScan wText "P" 30).common_terms).take 50 ∧
    (∀ c, (sortByCountDesc (textScan wText "P" 30).common_terms).filter
        (fun p => p.2 == c) =
      (textScan wText "P" 30).common_terms.filter (fun p => p.2 == c)) ∧
    CountSortedDesc [("bug", 2), ("ui", 1)] ∧
    List.Perm ([("bug", 2), ("ui", 1)] : List (String × Nat))
      (textScan wText "P" 30).labels ∧
    CountSortedDesc [("core", 2), ("db", 1)] ∧
    List.Perm ([("core", 2), ("db", 1)] : List (String × Nat))
      (textScan wText "P" 30).components_referenced :=
  text_tables_sorted wText 0 "P" 30
    { common_terms := [("beta", 3), ("alpha", 2), ("gamma", 2), ("delta", 1)]
      mentions := []
      labels := [("bug", 2), ("ui", 1)]
      components_referenced := [("core", 2), ("db", 1)]
      total_comments := 1
      avg_comment_length := ((11 : ℕ) : ℚ) / ((1 : ℕ) : ℚ)
      comment_frequency := [("2024-05-01", 1)] } rfl

/-! ## C6: no comments, no division -/

/-- An issue without comments leaves both comment counters unchanged. -/
lemma processIssue_counts (acc : TextAcc) (i : Issue) (h : i.comments = []) :
    (processIssue acc i).total_comments = acc.total_comments ∧
    (processIssue acc i).total_comment_length = acc.total_comment_length := by
  by_cases hd : optStrTruthy i.description = true <;>
    simp [processIssue, h, hd]

/-- Folding the text scan over comment-free issues leaves both comment
counters unchanged. -/
lemma foldl_processIssue_counts :
    ∀ (l : List Issue) (acc : TextAcc), (∀ i ∈ l, i.comments = []) →
      (l.foldl processIssue acc).total_comments = acc.total_comments ∧
      (l.foldl processIssue acc).total_comment_length = acc.total_comment_length := by
  intro l
  induction l with
  | nil => intro acc _; exact ⟨rfl, rfl⟩
  | cons i rest ih =>
    intro acc h
    rw [List.foldl_cons]
    obtain ⟨h1, h2⟩ := ih (processIssue acc i) fun j hj => h j (List.mem_cons_of_mem i hj)
    obtain ⟨g1, g2⟩ := processIssue_counts acc i (h i (List.mem_cons_self i rest))
    exact ⟨h1.trans g1, h2.trans g2⟩

/-- C6: when the windowed issues contain no comments (in particular, when
there are no issues at all), `analyze_text_content` reports zero total
comments and an average comment length of 0 — the average computation is
guarded and never divides. -/
theorem text_zero_comments (w : World) (sess : Session) (project_key : String)
    (days : Nat) (r : TextAnalysis)
    (h : (analyze_text_content w ⟨some sess⟩ project_key days).1 = .ok r)
    (hc : ∀ i ∈ w.searchIssues (textJql w project_key days) 1000, i.comments = []) :
    r.total_comments = 0 ∧ r.avg_comment_length = 0 := by
  simp only [analyze_text_content] at h
  rw [Except.ok.injEq] at h
  subst h
  have h0 := foldl_processIssue_counts _ ⟨[], [], [], [], 0, [], 0⟩ hc
  have ht : (textScan w project_key days).total_comments = 0 := by
    rw [textScan]
    exact h0.1
  refine ⟨ht, ?_⟩
  show (if (textScan w project_key days).total_comments > 0 then _ else 0) = 0
  rw [ht]
  simp

/-- Witness for C6: a world whose searches return no issues gives zero total
comments and average 0. -/
theorem text_zero_comments_witness :
    (0 : Nat) = 0 ∧ (0 : ℚ) = 0 :=
  text_zero_comments wC4 0 "P" 30
    { common_terms := [], mentions := [], labels := [],
      components_referenced := [], total_comments := 0,
      avg_comment_length := 0, comment_frequency := [] } rfl
    (fun i hi => absurd hi (List.not_mem_nil i))

/-! ## C7: shared components are the exact intersection -/

/-- Any value stored in `shared_components` is the exact intersection for its
key, preserved by one loop iteration. -/
lemma crossStep_val (w : World) (pk : String) (refs : CrossRefs) (rp' : String)
    (h : ∀ rp v, refs.shared_components.lookup rp = some v → v = sharedOf w pk rp) :
    ∀ rp v, ((crossStep w pk refs rp').1.shared_components.lookup rp = some v) →
      v = sharedOf w pk rp := by
  intro rp v hv
  by_cases hpc : w.hasProjectComponents = true
  · by_cases hs : sharedOf w pk rp' = ∅
    · have hs' := hs
      simp only [sharedOf] at hs'
      have heq : (crossStep w pk refs rp').1.shared_components =
          refs.shared_components := by
        simp [crossStep, hpc, hs']
      rw [heq] at hv
      exact h rp v hv
    · have hs' := hs
      simp only [sharedOf] at hs'
      have heq : (crossStep w pk refs rp').1.shared_components =
          dictInsert refs.shared_components rp' (sharedOf w pk rp') := by
        simp [crossStep, hpc, hs', sharedOf]
      rw [heq, lookup_dictInsert] at hv
      by_cases hrp : rp = rp'
      · rw [if_pos hrp] at hv
        rw [Option.some.injEq] at hv
        rw [← hv, hrp]
      · rw [if_neg hrp] at hv
        exact h rp v hv
  · have heq : (crossStep w pk refs rp').1.shared_components =
        refs.shared_components := by
      simp [crossStep, hpc]
    rw [heq] at hv
    exact h rp v hv

/-- A present `shared_components` entry stays present through one loop
iteration. -/
lemma crossStep_isSome (w : World) (pk : String) (refs : CrossRefs)
    (rp' rp : String)
    (h : (refs.shared_components.lookup rp).isSome = true) :
    (((crossStep w pk refs rp').1.shared_components.lookup rp).isSome = true) := by
  by_cases hpc : w.hasProjectComponents = true
  · by_cases hs : sharedOf w pk rp' = ∅
    · have hs' := hs
      simp only [sharedOf] at hs'
      have heq : (crossStep w pk refs rp').1.shared_components =
          refs.shared_components := by
        simp [crossStep, hpc, hs']
      rw [heq]
      exact h
    · have hs' := hs
      simp only [sharedOf] at hs'
      have heq : (crossStep w pk refs rp').1.shared_components =
          dictInsert refs.shared_components rp' (sharedOf w pk rp') := by
        simp [crossStep, hpc, hs', sharedOf]
      rw [heq, lookup_dictInsert]
      by_cases hrp : rp = rp' <;> simp [hrp, h]
  · have heq : (crossStep w pk refs rp').1.shared_components =
        refs.shared_components := by
      simp [crossStep, hpc]
    rw [heq]
    exact h

/-- The iteration for a project with a nonempty intersection records an
entry for it. -/
lemma crossStep_own (w : World) (pk : String) (refs : CrossRefs) (rp' : String)
    (hpc : w.hasProjectComponents = true) (hs : sharedOf w pk rp' ≠ ∅) :
    (((crossStep w pk refs rp').1.shared_components.lookup rp').isSome = true) := by
  have hs' := hs
  simp only [sharedOf] at hs'
  have heq : (crossStep w pk refs rp').1.shared_components =
      dictInsert refs.shared_components rp' (sharedOf w pk rp') := by
    simp [crossStep, hpc, hs', sharedOf]
  rw [heq, lookup_dictInsert]
  simp

/-- Presence of a `shared_components` entry survives the rest of the fold. -/
lemma crossFold_isSome_preserved (w : World) (pk : String) :
    ∀ (l : List String) (acc : CrossRefs × List RemoteCall) (rp : String),
      ((acc.1.shared_components.lookup rp).isSome = true) →
      ((((l.foldl (crossFoldStep w pk) acc).1.shared_components.lookup rp).isSome)
        = true) := by
  intro l
  induction l with
  | nil => intro acc rp h; exact h
  | cons rp0 rest ih =>
    intro acc rp h
    rw [List.foldl_cons]
    exact ih _ rp (crossStep_isSome w pk acc.1 rp0 rp h)

/-- After the fold, every related project of the processed list with a
nonempty intersection has a `shared_components` entry. -/
lemma crossFold_isSome (w : World) (pk : String)
    (hpc : w.hasProjectComponents = true) :
    ∀ (l : List String) (acc : CrossRefs × List RemoteCall) (rp : String),
      rp ∈ l → sharedOf w pk rp ≠ ∅ →
      ((((l.foldl (crossFoldStep w pk) acc).1.shared_components.lookup rp).isSome)
        = true) := by
  intro l
  induction l with
  | nil => intro acc rp h; exact absurd h (List.not_mem_nil rp)
  | cons rp0 rest ih =>
    intro acc rp hmem hs
    rw [List.foldl_cons]
    rcases List.mem_cons.mp hmem with hmem | hmem
    · subst hmem
      exact crossFold_isSome_preserved w pk rest _ rp
        (crossStep_own w pk acc.1 rp hpc hs)
    · exact ih _ rp hmem hs

/-- Stored intersections stay exact through the whole fold. -/
lemma crossFold_val (w : World) (pk : String) :
    ∀ (l : List String) (acc : CrossRefs × List RemoteCall),
      (∀ rp v, acc.1.shared_components.lookup rp = some v → v = sharedOf w pk rp) →
      ∀ rp v, ((l.foldl (crossFoldStep w pk) acc).1.shared_components.lookup rp
          = some v) → v = sharedOf w pk rp := by
  intro l
  induction l with
  | nil => intro acc h; exact h
  | cons rp0 rest ih =>
    intro acc h
    rw [List.foldl_cons]
    exact ih _ (crossStep_val w pk acc.1 rp0 h)

/-- C7: for every main project and every related project in the input list,
the recorded `shared_components` value for that related project (the empty
set when no entry was recorded) equals the exact set intersection of the two
projects' component-name sets, whenever component metadata is available. -/
theorem shared_components_exact (w : World) (sess : Session)
    (project_key : String) (related_projects : List String) (r : CrossRefs)
    (h : (get_cross_project_references w ⟨some sess⟩ project_key
        related_projects).1 = .ok r)
    (hpc : w.hasProjectComponents = true) :
    ∀ rp ∈ related_projects,
      (r.shared_components.lookup rp).getD ∅ = sharedOf w project_key rp := by
  simp only [get_cross_project_references] at h
  rw [Except.ok.injEq] at h
  subst h
  intro rp hrp
  have hval := crossFold_val w project_key related_projects (⟨[], [], [], []⟩, [])
    (fun rp v hv => by simp [List.lookup] at hv)
  cases hlk : ((related_projects.foldl (crossFoldStep w project_key)
      (⟨[], [], [], []⟩, [])).1.shared_components.lookup rp) with
  | some v =>
    exact hval rp v hlk
  | none =>
    by_cases hs : sharedOf w project_key rp = ∅
    · rw [hs]
      rfl
    · have := crossFold_isSome w project_key hpc related_projects
        (⟨[], [], [], []⟩, []) rp hrp hs
      rw [hlk] at this
      exact absurd this (by simp)

/-- Witness for C7: with components `core, ui` on project `P` and `core, db`
on project `Q`, the recorded shared set for `Q` is exactly `{core}`. -/
theorem shared_components_exact_witness :
    ((([("Q", ({"core"} : Finset String))] :
        List (String × Finset String)).lookup "Q").getD ∅) =
      sharedOf wC4 "P" "Q" :=
  shared_components_exact wC4 0 "P" ["Q"]
    { outgoing := [], incoming := [],
      shared_components := [("Q", {"core"})], related_issues := [] }
    rfl rfl "Q" (List.mem_singleton.mpr rfl)
